import Mathlib

/-!
Shallow embedding of `src/meshes/export-meshes.py` (the mesh-to-blob
exporter).  The host-editor scene housekeeping (object selection, mode
switching, triangulation operators, lines 27-70) is the collaborator: the
embedding starts from the data the script reads after that point — for each
object, an ordered mesh carrying vertices, loops, triangulated polygons, an
optional active vertex-color layer and an optional active uv layer.

Python floats are modelled as exact rationals (the claims under study do not
depend on IEEE-754 rounding); `struct.pack('f', x)` packs one such value into
4 bytes, `struct.pack('I', n)` packs an unsigned 32-bit value into 4 bytes
(raising for `n ≥ 2^32`), `struct.pack('B', v)` packs one byte (raising
outside `[0, 256)`).  A byte stream is a list of packed items measured by
`byteLen`.  A Python `assert` failure, `struct.error`, `IndexError` or
`AttributeError` aborts the script before the output file is opened; the
embedding models abortion as `none`.
-/

namespace MeshExport

/-- One element of `mesh.loops`: a face corner, carrying the mesh-level
vertex index and the split normal computed by `calc_normals_split()`. -/
structure MeshLoop where
  vertex_index : Nat
  normal : ℚ × ℚ × ℚ
deriving DecidableEq

/-- One element of `mesh.polygons`: `loop_indices` indexes into
`mesh.loops`, `vertices` holds the mesh-level vertex index of each corner. -/
structure Polygon where
  loop_indices : List Nat
  vertices : List Nat
deriving DecidableEq

/-- One element of the active vertex-color layer's `data` array
(`mesh.vertex_colors.active.data[...].color`): normalized channels. -/
structure VColor where
  r : ℚ
  g : ℚ
  b : ℚ
deriving DecidableEq

/-- One element of the active uv layer's `data` array
(`obj.data.uv_layers.active.data[...].uv`). -/
structure UV where
  x : ℚ
  y : ℚ
deriving DecidableEq

/-- The data the script reads from one object: its name (as the UTF-8 bytes
produced by `bytes(name, "utf8")`), and its mesh after triangulation.
`vertex_colors = none` models a mesh with no active vertex-color layer
(`mesh.vertex_colors.active` is `None`); `uv_layers = none` models
`len(obj.data.uv_layers) == 0`.  Both layers' `data` arrays are indexed by
loop (per corner). -/
structure Mesh where
  name : List Nat
  vertices : List (ℚ × ℚ × ℚ)
  loops : List MeshLoop
  polygons : List Polygon
  vertex_colors : Option (List VColor)
  uv_layers : Option (List UV)
deriving DecidableEq

/-- One item appended to a byte stream by a `struct.pack` call:
a 32-bit float (4 bytes), a single unsigned byte, or an unsigned
32-bit integer (4 bytes), all little-endian in the real format. -/
inductive PackItem where
  | f32 (x : ℚ)
  | u8 (b : Nat)
  | u32 (n : Nat)
deriving DecidableEq

/-- Byte width of one packed item. -/
def PackItem.byteLen : PackItem → Nat
  | .f32 _ => 4
  | .u8 _ => 1
  | .u32 _ => 4

/-- Byte length of a packed stream. -/
def byteLen (l : List PackItem) : Nat := (l.map PackItem.byteLen).sum

/-- Python `int()` applied to a real number: truncation toward zero. -/
def pyInt (q : ℚ) : ℤ := if 0 ≤ q then ⌊q⌋ else ⌈q⌉

/-- `struct.pack('B', v)`: one byte; raises `struct.error` outside
`[0, 256)`. -/
def packB (v : ℤ) : Option PackItem :=
  if 0 ≤ v ∧ v < 256 then some (.u8 v.toNat) else none

/-- `struct.pack('I', n)`: raises `struct.error` for `n ≥ 2^32`; returns the
packed value. -/
def packU32 (n : Nat) : Option Nat :=
  if n < 2 ^ 32 then some n else none

/-- Lines 92-112: encode corner `i` of polygon `poly` — position (3 floats),
split normal (3 floats), color bytes `BBBB` from the active color layer
indexed by `poly.vertices[i]` (line 104), alpha 255, and, when `do_texcoord`,
the uv pair (or `(0, 0)` when the mesh has no uv layer). -/
def encodeCorner (do_texcoord : Bool) (mesh : Mesh) (uvs : Option (List UV))
    (poly : Polygon) (i : Nat) : Option (List PackItem) := do
  let li ← poly.loop_indices.get? i
  let loop ← mesh.loops.get? li
  let pv ← poly.vertices.get? i
  -- line 93: assert(mesh.loops[poly.loop_indices[i]].vertex_index == poly.vertices[i])
  if loop.vertex_index = pv then
    let vertex ← mesh.vertices.get? loop.vertex_index
    -- line 104: mesh.vertex_colors.active is None when there is no layer
    let layer ← mesh.vertex_colors
    let col ← layer.get? pv
    -- line 105: struct.pack('BBBB', int(col.r*255), int(col.g*255), int(col.b*255), 255)
    let cr ← packB (pyInt (col.r * 255))
    let cg ← packB (pyInt (col.g * 255))
    let cb ← packB (pyInt (col.b * 255))
    let base := [PackItem.f32 vertex.1, .f32 vertex.2.1, .f32 vertex.2.2,
                 .f32 loop.normal.1, .f32 loop.normal.2.1, .f32 loop.normal.2.2,
                 cr, cg, cb, .u8 255]
    if do_texcoord then
      match uvs with
      | some us => do
          let uv ← us.get? li
          pure (base ++ [.f32 uv.x, .f32 uv.y])
      | none => pure (base ++ [.f32 0, .f32 0])
    else
      pure base
  else none

/-- Lines 90-112 for one polygon: assert it is a triangle (line 91), then
encode its three corners in order. -/
def encodePoly (do_texcoord : Bool) (mesh : Mesh) (uvs : Option (List UV))
    (poly : Polygon) : Option (List PackItem) :=
  if poly.loop_indices.length = 3 then do
    let c0 ← encodeCorner do_texcoord mesh uvs poly 0
    let c1 ← encodeCorner do_texcoord mesh uvs poly 1
    let c2 ← encodeCorner do_texcoord mesh uvs poly 2
    pure (c0 ++ c1 ++ c2)
  else none

/-- The `for poly in mesh.polygons` loop (line 90): concatenation of the
per-polygon encodings. -/
def encodePolys (do_texcoord : Bool) (mesh : Mesh) (uvs : Option (List UV)) :
    List Polygon → Option (List PackItem)
  | [] => some []
  | p :: ps => do
      let d ← encodePoly do_texcoord mesh uvs p
      let rest ← encodePolys do_texcoord mesh uvs ps
      pure (d ++ rest)

/-- The accumulating export state (lines 37-46): the geometry buffer `data`,
the `strings` buffer (raw bytes), the `index` buffer (a run of packed
unsigned 32-bit values, 4 bytes each), the running `vertex_count`, and the
names for which the uv warning of line 85 was printed. -/
structure ExportState where
  data : List PackItem
  strings : List Nat
  index : List Nat
  vertex_count : Nat
  warnings : List (List Nat)
deriving DecidableEq

/-- The initial state (lines 38-46). -/
def initState : ExportState :=
  { data := [], strings := [], index := [], vertex_count := 0, warnings := [] }

/-- One iteration of the `for name in to_write` loop (lines 72-113): append
the mesh name to `strings`, pack `(name_begin, name_end, vertex_count,
vertex_count + len(mesh.polygons)*3)` into `index`, resolve the uv layer
(warning when `do_texcoord` is set but the mesh has none, lines 82-87),
encode every polygon, and advance `vertex_count`. -/
def writeMesh (do_texcoord : Bool) (st : ExportState) (mesh : Mesh) :
    Option ExportState := do
  let name_begin := st.strings.length
  let strings' := st.strings ++ mesh.name
  let name_end := strings'.length
  let nb ← packU32 name_begin
  let ne ← packU32 name_end
  let vb ← packU32 st.vertex_count
  let ve ← packU32 (st.vertex_count + mesh.polygons.length * 3)
  let uvsWarn : Option (List UV) × List (List Nat) :=
    if do_texcoord then
      match mesh.uv_layers with
      | none => (none, st.warnings ++ [mesh.name])
      | some us => (some us, st.warnings)
    else (none, st.warnings)
  let d ← encodePolys do_texcoord mesh uvsWarn.1 mesh.polygons
  pure { data := st.data ++ d,
         strings := strings',
         index := st.index ++ [nb, ne, vb, ve],
         vertex_count := st.vertex_count + mesh.polygons.length * 3,
         warnings := uvsWarn.2 }

/-- The whole `for name in to_write` loop (line 47). -/
def writeMeshes (do_texcoord : Bool) : ExportState → List Mesh → Option ExportState
  | st, [] => some st
  | st, m :: ms => do
      let st' ← writeMesh do_texcoord st m
      writeMeshes do_texcoord st' ms

/-- The outcome of a successful run: the bytes written to the output file
(`blob`), together with the three payload buffers, the final vertex count and
the warnings, for stating properties of the file. -/
structure ExportResult where
  blob : List PackItem
  data : List PackItem
  strings : List Nat
  index : List Nat
  vertex_count : Nat
  warnings : List (List Nat)
deriving DecidableEq

/-- `struct.pack('4s', b'dat0')`: the four ASCII bytes of the tag. -/
def dat0Tag : List PackItem := [.u8 100, .u8 97, .u8 116, .u8 48]

/-- `struct.pack('4s', b'str0')`. -/
def str0Tag : List PackItem := [.u8 115, .u8 116, .u8 114, .u8 48]

/-- `struct.pack('4s', b'idx0')`. -/
def idx0Tag : List PackItem := [.u8 105, .u8 100, .u8 120, .u8 48]

/-- The whole script after the collaborator hands over the mesh list: the
per-mesh loop (lines 47-113), the final consistency assert of line 116
(`vertex_count * (4*3+4*3+4*1) == len(data)`), and the chunked blob write of
lines 119-131.  `none` models an aborted run with no output file (the file is
only opened at line 119, after the assert).  The byte length of the `index`
buffer is `4 * st.index.length` since it holds packed 32-bit values. -/
def exportMeshes (do_texcoord : Bool) (meshes : List Mesh) : Option ExportResult := do
  let st ← writeMeshes do_texcoord initState meshes
  if st.vertex_count * (4 * 3 + 4 * 3 + 4 * 1) = byteLen st.data then
    let dlen ← packU32 (byteLen st.data)
    let slen ← packU32 st.strings.length
    let ilen ← packU32 (4 * st.index.length)
    pure { blob := dat0Tag ++ [.u32 dlen] ++ st.data
                 ++ str0Tag ++ [.u32 slen] ++ st.strings.map PackItem.u8
                 ++ idx0Tag ++ [.u32 ilen] ++ st.index.map PackItem.u32,
           data := st.data,
           strings := st.strings,
           index := st.index,
           vertex_count := st.vertex_count,
           warnings := st.warnings }
  else none

/-- One 16-byte index record as four unsigned 32-bit fields (§3 of the
format: `(name_begin, name_end, vertex_begin, vertex_end)`). -/
structure IndexRecord where
  name_begin : Nat
  name_end : Nat
  vertex_begin : Nat
  vertex_end : Nat
deriving DecidableEq

/-- Parse the index buffer (a run of packed 32-bit values) into its 16-byte
records. -/
def indexQuads : List Nat → List IndexRecord
  | a :: b :: c :: d :: rest => ⟨a, b, c, d⟩ :: indexQuads rest
  | _ => []

/-- Record size of one vertex record: 28 bytes without texcoord, 36 with. -/
def recordSize (do_texcoord : Bool) : Nat := if do_texcoord then 36 else 28

/-- Checks that consecutive records chain from `s` to `t`: the first record
begins at `s`, each later record begins where the previous one ended, and the
last ends at `t`. -/
def chainb : Nat → List IndexRecord → Nat → Bool
  | s, [], t => s == t
  | s, r :: rs, t => (r.vertex_begin == s) && chainb r.vertex_end rs t

/-- The concatenation of the mesh names, as the `strings` buffer accumulates
it. -/
def specStrings : List Mesh → List Nat
  | [] => []
  | m :: ms => m.name ++ specStrings ms

/-- Total number of triangle corners contributed by a mesh list. -/
def specVC : List Mesh → Nat
  | [] => 0
  | m :: ms => m.polygons.length * 3 + specVC ms

/-- The index records produced for a mesh list, starting from a strings
offset `sl` and a vertex offset `vc`. -/
def specRecords : Nat → Nat → List Mesh → List IndexRecord
  | _, _, [] => []
  | sl, vc, m :: ms =>
      ⟨sl, sl + m.name.length, vc, vc + m.polygons.length * 3⟩ ::
      specRecords (sl + m.name.length) (vc + m.polygons.length * 3) ms

/-- Flatten index records back into the run of packed 32-bit values. -/
def recordsToList : List IndexRecord → List Nat
  | [] => []
  | r :: rs => r.name_begin :: r.name_end :: r.vertex_begin :: r.vertex_end :: recordsToList rs

/-- The color layer used by `triMesh`: pure red at every loop. -/
def triColors : List VColor := [⟨1, 0, 0⟩, ⟨1, 0, 0⟩, ⟨1, 0, 0⟩]

/-- The single triangle of `triMesh`. -/
def triPoly : Polygon := ⟨[0, 1, 2], [0, 1, 2]⟩

/-- The spec's example input: one mesh named "Tri" (UTF-8 bytes 84 114 105),
a single triangle, all-red vertex colors, no uv layer. -/
def triMesh : Mesh :=
  { name := [84, 114, 105],
    vertices := [(0, 0, 0), (1, 0, 0), (0, 1, 0)],
    loops := [⟨0, (0, 0, 1)⟩, ⟨1, (0, 0, 1)⟩, ⟨2, (0, 0, 1)⟩],
    polygons := [triPoly],
    vertex_colors := some triColors,
    uv_layers := none }

/-- A mesh whose polygon still has four corners after conversion. -/
def quadMesh : Mesh :=
  { name := [81],
    vertices := [(0, 0, 0), (1, 0, 0), (1, 1, 0), (0, 1, 0)],
    loops := [⟨0, (0, 0, 1)⟩, ⟨1, (0, 0, 1)⟩, ⟨2, (0, 0, 1)⟩, ⟨3, (0, 0, 1)⟩],
    polygons := [⟨[0, 1, 2, 3], [0, 1, 2, 3]⟩],
    vertex_colors := some [⟨1, 1, 1⟩, ⟨1, 1, 1⟩, ⟨1, 1, 1⟩, ⟨1, 1, 1⟩],
    uv_layers := none }

/-- The second triangle of `mesh7`: its corner 0 is loop 3, which references
mesh vertex 0 — a vertex also referenced by loop 0 of the first triangle. -/
def poly7 : Polygon := ⟨[3, 4, 5], [0, 2, 3]⟩

/-- The per-loop colors of `mesh7`: loop 0 and loop 3 share vertex 0 but
carry different colors (black vs. red), a color seam. -/
def colors7 : List VColor :=
  [⟨0, 0, 0⟩, ⟨0, 0, 0⟩, ⟨0, 0, 0⟩, ⟨1, 0, 0⟩, ⟨0, 0, 0⟩, ⟨0, 0, 0⟩]

/-- Two triangles sharing vertex 0, with a color seam at that vertex. -/
def mesh7 : Mesh :=
  { name := [77],
    vertices := [(0, 0, 0), (1, 0, 0), (0, 1, 0), (1, 1, 0)],
    loops := [⟨0, (0, 0, 1)⟩, ⟨1, (0, 0, 1)⟩, ⟨2, (0, 0, 1)⟩,
              ⟨0, (0, 0, 1)⟩, ⟨2, (0, 0, 1)⟩, ⟨3, (0, 0, 1)⟩],
    polygons := [⟨[0, 1, 2], [0, 1, 2]⟩, poly7],
    vertex_colors := some colors7,
    uv_layers := none }

/-- A well-formed one-triangle mesh with colors but no uv layer, named "Cube". -/
def mesh8 : Mesh :=
  { name := [67, 117, 98, 101],
    vertices := [(0, 0, 0), (1, 0, 0), (0, 1, 0)],
    loops := [⟨0, (0, 0, 1)⟩, ⟨1, (0, 0, 1)⟩, ⟨2, (0, 0, 1)⟩],
    polygons := [⟨[0, 1, 2], [0, 1, 2]⟩],
    vertex_colors := some [⟨1/2, 0, 1⟩, ⟨1/2, 0, 1⟩, ⟨1/2, 0, 1⟩],
    uv_layers := none }

/-- A mesh with no polygons and no active vertex-color layer. -/
def emptyNoColor : Mesh :=
  { name := [69], vertices := [], loops := [], polygons := [],
    vertex_colors := none, uv_layers := none }

/-- A triangle mesh with no active vertex-color layer. -/
def noColorTri : Mesh :=
  { name := [78],
    vertices := [(0, 0, 0), (1, 0, 0), (0, 1, 0)],
    loops := [⟨0, (0, 0, 1)⟩, ⟨1, (0, 0, 1)⟩, ⟨2, (0, 0, 1)⟩],
    polygons := [⟨[0, 1, 2], [0, 1, 2]⟩],
    vertex_colors := none,
    uv_layers := none }

theorem indexQuads_recordsToList (rs : List IndexRecord) :
    indexQuads (recordsToList rs) = rs := by
  induction rs with
  | nil => rfl
  | cons r rs ih => simp [recordsToList, indexQuads, ih]

theorem byteLen_append (a b : List PackItem) :
    byteLen (a ++ b) = byteLen a + byteLen b := by
  simp [byteLen]

theorem byteLen_map_u8 (l : List Nat) : byteLen (l.map PackItem.u8) = l.length := by
  induction l with
  | nil => rfl
  | cons b l ih =>
    simp only [List.map_cons, byteLen, List.sum_cons, List.length_cons,
      PackItem.byteLen] at ih ⊢
    omega

theorem byteLen_map_u32 (l : List Nat) : byteLen (l.map PackItem.u32) = 4 * l.length := by
  induction l with
  | nil => rfl
  | cons b l ih =>
    simp only [List.map_cons, byteLen, List.sum_cons, List.length_cons,
      PackItem.byteLen] at ih ⊢
    omega

theorem packU32_eq {n m : Nat} (h : packU32 n = some m) : m = n := by
  unfold packU32 at h
  split at h <;> simp_all

theorem packB_shape {v : ℤ} {c : PackItem} (h : packB v = some c) :
    c = .u8 v.toNat ∧ 0 ≤ v ∧ v < 256 := by
  unfold packB at h
  split at h <;> simp_all

theorem encodeCorner_byteLen {dt : Bool} {mesh : Mesh} {uvs : Option (List UV)}
    {poly : Polygon} {i : Nat} {out : List PackItem}
    (h : encodeCorner dt mesh uvs poly i = some out) :
    byteLen out = recordSize dt := by
  simp only [encodeCorner, Option.bind_eq_bind', Option.bind_eq_some] at h
  obtain ⟨li, hli, loop, hloop, pv, hpv, h⟩ := h
  split at h
  · simp only [Option.bind_eq_bind', Option.bind_eq_some] at h
    obtain ⟨vertex, hv, layer, hlay, col, hcol, cr, hcr, cg, hcg, cb, hcb, h⟩ := h
    obtain ⟨hcr', -, -⟩ := packB_shape hcr
    obtain ⟨hcg', -, -⟩ := packB_shape hcg
    obtain ⟨hcb', -, -⟩ := packB_shape hcb
    subst hcr' hcg' hcb'
    cases dt with
    | false =>
      simp only [Bool.false_eq_true, if_false, Option.pure_def, Option.some.injEq] at h
      subst h
      simp [byteLen, PackItem.byteLen, recordSize]
    | true =>
      simp only [if_true] at h
      cases uvs with
      | none =>
        simp only [Option.pure_def, Option.some.injEq] at h
        subst h
        simp [byteLen, PackItem.byteLen, recordSize]
      | some us =>
        simp only [Option.bind_eq_bind', Option.bind_eq_some, Option.pure_def,
          Option.some.injEq] at h
        obtain ⟨uv, huv, h⟩ := h
        subst h
        simp [byteLen, PackItem.byteLen, recordSize]
  · exact absurd h (by simp)

theorem encodePoly_byteLen {dt : Bool} {mesh : Mesh} {uvs : Option (List UV)}
    {poly : Polygon} {out : List PackItem}
    (h : encodePoly dt mesh uvs poly = some out) :
    byteLen out = 3 * recordSize dt := by
  unfold encodePoly at h
  split at h
  · simp only [Option.bind_eq_bind', Option.bind_eq_some, Option.pure_def,
      Option.some.injEq] at h
    obtain ⟨c0, h0, c1, h1, c2, h2, h⟩ := h
    subst h
    simp only [byteLen_append, encodeCorner_byteLen h0, encodeCorner_byteLen h1,
      encodeCorner_byteLen h2]
    ring
  · exact absurd h (by simp)

theorem encodePolys_byteLen {dt : Bool} {mesh : Mesh} {uvs : Option (List UV)} :
    ∀ {ps : List Polygon} {out : List PackItem},
    encodePolys dt mesh uvs ps = some out →
    byteLen out = ps.length * 3 * recordSize dt := by
  intro ps
  induction ps with
  | nil =>
    intro out h
    simp only [encodePolys, Option.some.injEq] at h
    subst h
    simp [byteLen]
  | cons p ps ih =>
    intro out h
    simp only [encodePolys, Option.bind_eq_bind', Option.bind_eq_some, Option.pure_def,
      Option.some.injEq] at h
    obtain ⟨d, hd, rest, hrest, h⟩ := h
    subst h
    simp only [byteLen_append, encodePoly_byteLen hd, ih hrest, List.length_cons]
    ring

theorem writeMesh_spec {dt : Bool} {st : ExportState} {m : Mesh} {st' : ExportState}
    (h : writeMesh dt st m = some st') :
    st'.strings = st.strings ++ m.name ∧
    st'.index = st.index ++ [st.strings.length, st.strings.length + m.name.length,
      st.vertex_count, st.vertex_count + m.polygons.length * 3] ∧
    st'.vertex_count = st.vertex_count + m.polygons.length * 3 ∧
    byteLen st'.data = byteLen st.data + m.polygons.length * 3 * recordSize dt := by
  simp only [writeMesh, Option.bind_eq_bind', Option.bind_eq_some] at h
  obtain ⟨nb, hnb, ne, hne, vb, hvb, ve, hve, h⟩ := h
  simp only [Option.bind_eq_bind', Option.bind_eq_some, Option.pure_def,
    Option.some.injEq] at h
  obtain ⟨d, hd, h⟩ := h
  subst h
  have hnb' := packU32_eq hnb
  have hne' := packU32_eq hne
  have hvb' := packU32_eq hvb
  have hve' := packU32_eq hve
  subst hnb' hne' hvb' hve'
  refine ⟨rfl, by simp, rfl, ?_⟩
  simp [byteLen_append, encodePolys_byteLen hd]

theorem writeMeshes_spec {dt : Bool} :
    ∀ {ms : List Mesh} {st st' : ExportState},
    writeMeshes dt st ms = some st' →
    st'.strings = st.strings ++ specStrings ms ∧
    st'.index = st.index ++ recordsToList (specRecords st.strings.length st.vertex_count ms) ∧
    st'.vertex_count = st.vertex_count + specVC ms ∧
    byteLen st'.data = byteLen st.data + specVC ms * recordSize dt := by
  intro ms
  induction ms with
  | nil =>
    intro st st' h
    simp only [writeMeshes, Option.some.injEq] at h
    subst h
    simp [specStrings, specRecords, recordsToList, specVC]
  | cons m ms ih =>
    intro st st' h
    simp only [writeMeshes, Option.bind_eq_bind', Option.bind_eq_some] at h
    obtain ⟨st1, h1, h2⟩ := h
    obtain ⟨hs, hi, hv, hd⟩ := writeMesh_spec h1
    obtain ⟨hs', hi', hv', hd'⟩ := ih h2
    rw [hs] at hs' hi'
    rw [hv] at hi' hv'
    refine ⟨?_, ?_, ?_, ?_⟩
    · rw [hs', List.append_assoc]
      rfl
    · rw [hi', hi]
      simp only [List.length_append, specRecords, recordsToList, List.append_assoc]
      rfl
    · rw [hv']
      simp [specVC]
      ring
    · rw [hd', hd]
      simp [specVC]
      ring

theorem exportMeshes_spec {dt : Bool} {meshes : List Mesh} {res : ExportResult}
    (h : exportMeshes dt meshes = some res) :
    res.strings = specStrings meshes ∧
    res.index = recordsToList (specRecords 0 0 meshes) ∧
    res.vertex_count = specVC meshes ∧
    byteLen res.data = specVC meshes * recordSize dt ∧
    res.vertex_count * 28 = byteLen res.data ∧
    res.blob = dat0Tag ++ [.u32 (byteLen res.data)] ++ res.data
             ++ str0Tag ++ [.u32 res.strings.length] ++ res.strings.map PackItem.u8
             ++ idx0Tag ++ [.u32 (4 * res.index.length)] ++ res.index.map PackItem.u32 := by
  simp only [exportMeshes, Option.bind_eq_bind', Option.bind_eq_some] at h
  obtain ⟨st, hst, h⟩ := h
  obtain ⟨hs, hi, hv, hd⟩ := writeMeshes_spec hst
  simp only [initState, List.nil_append, List.length_nil] at hs hi hv hd
  rw [show byteLen [] = 0 from rfl] at hd
  split at h
  · rename_i hassert
    simp only [Option.bind_eq_bind', Option.bind_eq_some, Option.pure_def,
      Option.some.injEq] at h
    obtain ⟨dlen, hdlen, slen, hslen, ilen, hilen, h⟩ := h
    have hdlen' := packU32_eq hdlen
    have hslen' := packU32_eq hslen
    have hilen' := packU32_eq hilen
    subst hdlen' hslen' hilen'
    subst h
    refine ⟨hs, hi, by simpa using hv, by simpa using hd, by simpa using hassert, rfl⟩
  · exact absurd h (by simp)

theorem specStrings_eq_flatten (ms : List Mesh) :
    specStrings ms = (ms.map Mesh.name).flatten := by
  induction ms with
  | nil => rfl
  | cons m ms ih => simp [specStrings, ih]

theorem specRecords_length : ∀ (ms : List Mesh) (sl vc : Nat),
    (specRecords sl vc ms).length = ms.length := by
  intro ms
  induction ms with
  | nil => intro sl vc; rfl
  | cons m ms ih => intro sl vc; simp [specRecords, ih]

theorem specRecords_chainb : ∀ (ms : List Mesh) (sl vc : Nat),
    chainb vc (specRecords sl vc ms) (vc + specVC ms) = true := by
  intro ms
  induction ms with
  | nil => intro sl vc; simp [specRecords, specVC, chainb]
  | cons m ms ih =>
    intro sl vc
    simp only [specRecords, specVC, chainb, beq_self_eq_true, Bool.true_and]
    have := ih (sl + m.name.length) (vc + m.polygons.length * 3)
    rw [show vc + (m.polygons.length * 3 + specVC ms)
        = vc + m.polygons.length * 3 + specVC ms by ring]
    exact this

theorem specRecords_vertex_range : ∀ (ms : List Mesh) (sl vc k : Nat)
    (r : IndexRecord) (m : Mesh),
    (specRecords sl vc ms).get? k = some r → ms.get? k = some m →
    r.vertex_end = r.vertex_begin + 3 * m.polygons.length := by
  intro ms
  induction ms with
  | nil => intro sl vc k r m hr hm; simp [specRecords] at hr
  | cons m0 ms ih =>
    intro sl vc k r m hr hm
    cases k with
    | zero =>
      simp only [specRecords, List.get?_cons_zero, Option.some.injEq] at hr hm
      subst hr hm
      simp
      ring
    | succ k =>
      simp only [specRecords, List.get?_cons_succ] at hr hm
      exact ih _ _ k r m hr hm

theorem specRecords_name_slice : ∀ (ms : List Mesh) (pre : List Nat) (vc k : Nat)
    (r : IndexRecord) (m : Mesh),
    (specRecords pre.length vc ms).get? k = some r → ms.get? k = some m →
    ((pre ++ specStrings ms).drop r.name_begin).take (r.name_end - r.name_begin)
      = m.name := by
  intro ms
  induction ms with
  | nil => intro pre vc k r m hr hm; simp [specRecords] at hr
  | cons m0 ms ih =>
    intro pre vc k r m hr hm
    cases k with
    | zero =>
      simp only [specRecords, List.get?_cons_zero, Option.some.injEq] at hr hm
      subst hr
      rw [← hm]
      simp [specStrings, Nat.add_sub_cancel_left]
    | succ k =>
      simp only [specRecords, List.get?_cons_succ] at hr hm
      have hlen : pre.length + m0.name.length = (pre ++ m0.name).length := by simp
      rw [hlen] at hr
      have := ih (pre ++ m0.name) (vc + m0.polygons.length * 3) k r m hr hm
      rw [List.append_assoc] at this
      exact this

theorem opt_bind_none {α β : Type} (x : Option α) :
    (x >>= fun _ => (none : Option β)) = none := by
  cases x <;> rfl

theorem encodePoly_of_bad {dt : Bool} {mesh : Mesh} {uvs : Option (List UV)}
    {p : Polygon} (hp : p.loop_indices.length ≠ 3) :
    encodePoly dt mesh uvs p = none := by
  simp [encodePoly, hp]

theorem encodePolys_of_bad {dt : Bool} {mesh : Mesh} {uvs : Option (List UV)} :
    ∀ {ps : List Polygon} {p : Polygon}, p ∈ ps → p.loop_indices.length ≠ 3 →
    encodePolys dt mesh uvs ps = none := by
  intro ps
  induction ps with
  | nil => intro p hp; simp at hp
  | cons q ps ih =>
    intro p hp hlen
    rcases List.mem_cons.mp hp with h | h
    · subst h
      simp [encodePolys, encodePoly_of_bad hlen]
    · cases hq : encodePoly dt mesh uvs q with
      | none => simp [encodePolys, hq]
      | some d => simp [encodePolys, hq, ih h hlen]

theorem encodeCorner_of_nocolor {dt : Bool} {mesh : Mesh} {uvs : Option (List UV)}
    {poly : Polygon} {i : Nat} (hc : mesh.vertex_colors = none) :
    encodeCorner dt mesh uvs poly i = none := by
  simp [encodeCorner, hc, opt_bind_none]

theorem encodePoly_of_nocolor {dt : Bool} {mesh : Mesh} {uvs : Option (List UV)}
    {p : Polygon} (hc : mesh.vertex_colors = none) :
    encodePoly dt mesh uvs p = none := by
  simp [encodePoly, encodeCorner_of_nocolor hc]

theorem encodePolys_of_nocolor {dt : Bool} {mesh : Mesh} {uvs : Option (List UV)}
    {p : Polygon} {ps : List Polygon} (hc : mesh.vertex_colors = none) :
    encodePolys dt mesh uvs (p :: ps) = none := by
  simp [encodePolys, encodePoly_of_nocolor hc]

theorem writeMesh_of_polys_none {dt : Bool} {st : ExportState} {mesh : Mesh}
    (h : ∀ uvs : Option (List UV), encodePolys dt mesh uvs mesh.polygons = none) :
    writeMesh dt st mesh = none := by
  simp [writeMesh, h, opt_bind_none]

theorem writeMeshes_of_mem_none {dt : Bool} {m : Mesh}
    (hm : ∀ st : ExportState, writeMesh dt st m = none) :
    ∀ {ms : List Mesh}, m ∈ ms → ∀ st : ExportState,
    writeMeshes dt st ms = none := by
  intro ms
  induction ms with
  | nil => intro h; simp at h
  | cons m0 ms ih =>
    intro h st
    rcases List.mem_cons.mp h with h | h
    · subst h
      simp [writeMeshes, hm st]
    · cases h0 : writeMesh dt st m0 with
      | none => simp [writeMeshes, h0]
      | some st1 => simp [writeMeshes, h0, ih h st1]

theorem exportMeshes_of_loop_none {dt : Bool} {meshes : List Mesh}
    (h : writeMeshes dt initState meshes = none) :
    exportMeshes dt meshes = none := by
  simp [exportMeshes, h]

theorem specVC_pos {m : Mesh} (hp : m.polygons ≠ []) :
    ∀ {ms : List Mesh}, m ∈ ms → 0 < specVC ms := by
  intro ms
  induction ms with
  | nil => intro h; simp at h
  | cons m0 ms ih =>
    intro h
    rcases List.mem_cons.mp h with h | h
    · subst h
      have : m.polygons.length ≠ 0 := fun hl => hp (List.length_eq_zero.mp hl)
      simp only [specVC]
      omega
    · have := ih h
      simp only [specVC]
      omega

/-- C1: for every exported file, the geometry payload length equals
`vertex_count` times the record size — 28 bytes with the texcoord flag off,
36 bytes with it on — where `vertex_count` is the running total of triangle
corners over all meshes in processing order (`specVC`). -/
theorem c1_geometry_length (dt : Bool) (meshes : List Mesh) (res : ExportResult)
    (h : exportMeshes dt meshes = some res) :
    res.vertex_count = specVC meshes ∧
    byteLen res.data = res.vertex_count * (if dt then 36 else 28) := by
  obtain ⟨-, -, hv, hd, ha, -⟩ := exportMeshes_spec h
  refine ⟨hv, ?_⟩
  rw [hv] at ha ⊢
  cases dt with
  | false =>
    simp only [recordSize, Bool.false_eq_true, if_false] at hd ⊢
    exact hd
  | true =>
    simp only [recordSize, if_true] at hd ⊢
    omega

/-- Witness for C1 at the concrete input `[triMesh]`. -/
theorem c1_geometry_length_witness :
    ((exportMeshes false [triMesh]).get (by with_unfolding_all decide)).vertex_count
      = specVC [triMesh] ∧
    byteLen ((exportMeshes false [triMesh]).get (by with_unfolding_all decide)).data
      = ((exportMeshes false [triMesh]).get (by with_unfolding_all decide)).vertex_count
        * (if false then 36 else 28) :=
  c1_geometry_length false [triMesh] _ (Option.some_get _).symm

/-- C2: an input containing a mesh with a polygon whose corner count is not 3
after conversion makes the whole export abort: no output file is produced
(the assert of line 91 fires before the file is opened at line 119). -/
theorem c2_nontriangle_aborts (dt : Bool) (meshes : List Mesh) (m : Mesh)
    (p : Polygon) (hm : m ∈ meshes) (hp : p ∈ m.polygons)
    (hlen : p.loop_indices.length ≠ 3) :
    exportMeshes dt meshes = none :=
  exportMeshes_of_loop_none
    (writeMeshes_of_mem_none
      (fun _ => writeMesh_of_polys_none (fun _ => encodePolys_of_bad hp hlen))
      hm initState)

/-- Witness for C2 at the concrete input `[quadMesh]`. -/
theorem c2_nontriangle_aborts_witness :
    exportMeshes false [quadMesh] = none :=
  c2_nontriangle_aborts false [quadMesh] quadMesh ⟨[0, 1, 2, 3], [0, 1, 2, 3]⟩
    (by with_unfolding_all decide) (by with_unfolding_all decide)
    (by with_unfolding_all decide)

/-- C9 (amended): a mesh with no active vertex/corner color layer makes the
export abort with no file written, provided the mesh has at least one
polygon; a colorless mesh with no polygons never reaches the color lookup of
line 104 and exports successfully (see the counterexample). -/
theorem c9_missing_color_aborts (dt : Bool) (meshes : List Mesh) (m : Mesh)
    (hm : m ∈ meshes) (hc : m.vertex_colors = none) (hp : m.polygons ≠ []) :
    exportMeshes dt meshes = none := by
  apply exportMeshes_of_loop_none
  refine writeMeshes_of_mem_none (fun st => ?_) hm initState
  apply writeMesh_of_polys_none
  intro uvs
  cases hps : m.polygons with
  | nil => exact absurd hps hp
  | cons p ps => exact encodePolys_of_nocolor hc

/-- Witness for C9 (amended) at the concrete input `[noColorTri]`. -/
theorem c9_missing_color_aborts_witness :
    exportMeshes false [noColorTri] = none :=
  c9_missing_color_aborts false [noColorTri] noColorTri
    (by with_unfolding_all decide) (by with_unfolding_all decide)
    (by with_unfolding_all decide)

/-- Counterexample to C9 as stated: `[emptyNoColor]` is an input containing
a mesh with no active color layer, yet the export succeeds and produces an
output file. -/
theorem c9_missing_color_counterexample :
    emptyNoColor.vertex_colors = none ∧ emptyNoColor ∈ [emptyNoColor] ∧
    exportMeshes false [emptyNoColor] ≠ none := by
  with_unfolding_all decide

/-- C10: the final consistency assert of line 116 compares the geometry
length against `vertex_count * 28` whatever the texcoord flag is; with the
flag enabled, any input contributing at least one polygon (hence three
vertices) fails it, so the export aborts with no file written even though
every mesh is well-formed. -/
theorem c10_texcoord_assert_aborts (meshes : List Mesh) (m : Mesh)
    (hm : m ∈ meshes) (hp : m.polygons ≠ []) :
    exportMeshes true meshes = none := by
  cases h : exportMeshes true meshes with
  | none => rfl
  | some res =>
    obtain ⟨-, -, hv, hd, ha, -⟩ := exportMeshes_spec h
    have hpos := specVC_pos hp hm
    rw [hv] at ha
    simp only [recordSize, if_true] at hd
    omega

/-- Witness for C10 at the concrete input `[triMesh]`. -/
theorem c10_texcoord_assert_aborts_witness :
    exportMeshes true [triMesh] = none :=
  c10_texcoord_assert_aborts [triMesh] triMesh
    (by with_unfolding_all decide) (by with_unfolding_all decide)

/-- C3: in every exported file the index records, in processing order,
partition `[0, vertex_count)`: there is one record per mesh, the first
record begins at 0, each record begins where the previous one ended, the
last ends at `vertex_count` (all captured by `chainb`), and each record
spans `3 × polygon count` vertices of its mesh — a multiple of 3, so the
ranges are also monotonically non-decreasing. -/
theorem c3_index_partition (dt : Bool) (meshes : List Mesh) (res : ExportResult)
    (h : exportMeshes dt meshes = some res) :
    (indexQuads res.index).length = meshes.length ∧
    chainb 0 (indexQuads res.index) res.vertex_count = true ∧
    ∀ (k : Nat) (r : IndexRecord) (m : Mesh),
      (indexQuads res.index).get? k = some r → meshes.get? k = some m →
      r.vertex_end = r.vertex_begin + 3 * m.polygons.length := by
  obtain ⟨-, hi, hv, -, -, -⟩ := exportMeshes_spec h
  rw [hi, indexQuads_recordsToList]
  refine ⟨specRecords_length _ _ _, ?_, ?_⟩
  · rw [hv]
    simpa using specRecords_chainb meshes 0 0
  · intro k r m hr hm
    exact specRecords_vertex_range meshes 0 0 k r m hr hm

/-- Witness for C3 at the concrete input `[triMesh]`. -/
theorem c3_index_partition_witness :
    (indexQuads ((exportMeshes false [triMesh]).get (by with_unfolding_all decide)).index).length
      = [triMesh].length ∧
    chainb 0 (indexQuads ((exportMeshes false [triMesh]).get (by with_unfolding_all decide)).index)
      ((exportMeshes false [triMesh]).get (by with_unfolding_all decide)).vertex_count = true ∧
    ∀ (k : Nat) (r : IndexRecord) (m : Mesh),
      (indexQuads ((exportMeshes false [triMesh]).get (by with_unfolding_all decide)).index).get? k
        = some r → [triMesh].get? k = some m →
      r.vertex_end = r.vertex_begin + 3 * m.polygons.length :=
  c3_index_partition false [triMesh] _ (Option.some_get _).symm

/-- C4: in every exported file the strings payload is the raw concatenation
of the meshes' UTF-8 names in processing order, with no separators, and for
every index record the byte slice `strings[name_begin:name_end]` is exactly
the corresponding mesh's name (names are modelled as their UTF-8 bytes, so
byte equality is equality of the decoded names). -/
theorem c4_name_slices (dt : Bool) (meshes : List Mesh) (res : ExportResult)
    (h : exportMeshes dt meshes = some res) :
    res.strings = (meshes.map Mesh.name).flatten ∧
    ∀ (k : Nat) (r : IndexRecord) (m : Mesh),
      (indexQuads res.index).get? k = some r → meshes.get? k = some m →
      (res.strings.drop r.name_begin).take (r.name_end - r.name_begin) = m.name := by
  obtain ⟨hs, hi, -, -, -, -⟩ := exportMeshes_spec h
  constructor
  · rw [hs, specStrings_eq_flatten]
  · intro k r m hr hm
    rw [hi, indexQuads_recordsToList] at hr
    rw [hs]
    have := specRecords_name_slice meshes [] 0 k r m (by simpa using hr) hm
    simpa using this

/-- Witness for C4 at the concrete input `[triMesh]`. -/
theorem c4_name_slices_witness :
    ((exportMeshes false [triMesh]).get (by with_unfolding_all decide)).strings
      = ([triMesh].map Mesh.name).flatten ∧
    ∀ (k : Nat) (r : IndexRecord) (m : Mesh),
      (indexQuads ((exportMeshes false [triMesh]).get (by with_unfolding_all decide)).index).get? k
        = some r → [triMesh].get? k = some m →
      (((exportMeshes false [triMesh]).get (by with_unfolding_all decide)).strings.drop
        r.name_begin).take (r.name_end - r.name_begin) = m.name :=
  c4_name_slices false [triMesh] _ (Option.some_get _).symm

/-- C5: every successfully exported file is exactly three chunks in the
fixed order `dat0`, `str0`, `idx0`, each a 4-byte ASCII tag, a 4-byte
little-endian payload length (excluding the 8-byte header), then the raw
payload; the total bytes written is the sum over the chunks of
`8 + payload_length`, as the writer reports at line 133. -/
theorem c5_blob_layout (dt : Bool) (meshes : List Mesh) (res : ExportResult)
    (h : exportMeshes dt meshes = some res) :
    res.blob = dat0Tag ++ [.u32 (byteLen res.data)] ++ res.data
             ++ str0Tag ++ [.u32 res.strings.length] ++ res.strings.map PackItem.u8
             ++ idx0Tag ++ [.u32 (4 * res.index.length)] ++ res.index.map PackItem.u32 ∧
    byteLen res.blob = (8 + byteLen res.data) + (8 + res.strings.length)
                     + (8 + 4 * res.index.length) := by
  obtain ⟨-, -, -, -, -, hb⟩ := exportMeshes_spec h
  refine ⟨hb, ?_⟩
  rw [hb]
  simp only [byteLen_append, byteLen_map_u8, byteLen_map_u32]
  have h1 : byteLen dat0Tag = 4 := rfl
  have h2 : byteLen str0Tag = 4 := rfl
  have h3 : byteLen idx0Tag = 4 := rfl
  have h4 : ∀ n : Nat, byteLen [PackItem.u32 n] = 4 := fun _ => rfl
  rw [h1, h2, h3, h4, h4, h4]
  ring

/-- Witness for C5 at the concrete input `[triMesh]`. -/
theorem c5_blob_layout_witness :
    ((exportMeshes false [triMesh]).get (by with_unfolding_all decide)).blob
      = dat0Tag
        ++ [.u32 (byteLen ((exportMeshes false [triMesh]).get (by with_unfolding_all decide)).data)]
        ++ ((exportMeshes false [triMesh]).get (by with_unfolding_all decide)).data
        ++ str0Tag
        ++ [.u32 ((exportMeshes false [triMesh]).get (by with_unfolding_all decide)).strings.length]
        ++ ((exportMeshes false [triMesh]).get (by with_unfolding_all decide)).strings.map PackItem.u8
        ++ idx0Tag
        ++ [.u32 (4 * ((exportMeshes false [triMesh]).get (by with_unfolding_all decide)).index.length)]
        ++ ((exportMeshes false [triMesh]).get (by with_unfolding_all decide)).index.map PackItem.u32 ∧
    byteLen ((exportMeshes false [triMesh]).get (by with_unfolding_all decide)).blob
      = (8 + byteLen ((exportMeshes false [triMesh]).get (by with_unfolding_all decide)).data)
        + (8 + ((exportMeshes false [triMesh]).get (by with_unfolding_all decide)).strings.length)
        + (8 + 4 * ((exportMeshes false [triMesh]).get (by with_unfolding_all decide)).index.length) :=
  c5_blob_layout false [triMesh] _ (Option.some_get _).symm

/-- C6: for every encoded triangle corner, each of the red, green and blue
color bytes is `⌊channel * 255⌋` — truncating multiplication of the
normalized channel (Python `int()` truncates toward zero, which on a
nonnegative channel is the floor), not rounding — and the alpha byte is
always 255.  The bytes sit at items 6-9 of the corner record (byte offsets
24-27), after the six packed floats. -/
theorem c6_color_bytes (dt : Bool) (mesh : Mesh) (uvs : Option (List UV))
    (poly : Polygon) (i : Nat) (out : List PackItem) (pv : Nat)
    (layer : List VColor) (col : VColor)
    (h : encodeCorner dt mesh uvs poly i = some out)
    (hpv : poly.vertices.get? i = some pv)
    (hlayer : mesh.vertex_colors = some layer)
    (hcol : layer.get? pv = some col)
    (hr : 0 ≤ col.r) (hg : 0 ≤ col.g) (hb : 0 ≤ col.b) :
    out.get? 6 = some (.u8 (⌊col.r * 255⌋).toNat) ∧
    out.get? 7 = some (.u8 (⌊col.g * 255⌋).toNat) ∧
    out.get? 8 = some (.u8 (⌊col.b * 255⌋).toNat) ∧
    out.get? 9 = some (.u8 255) := by
  simp only [encodeCorner, Option.bind_eq_bind', Option.bind_eq_some] at h
  obtain ⟨li, hli, loop, hloop, pv', hpv', h⟩ := h
  have e1 : pv = pv' := by rw [hpv] at hpv'; exact Option.some.inj hpv'
  subst e1
  split at h
  · simp only [Option.bind_eq_bind', Option.bind_eq_some] at h
    obtain ⟨vertex, hv, layer', hlay, col', hcol2, cr, hcr, cg, hcg, cb, hcb, h⟩ := h
    have e2 : layer = layer' := by rw [hlayer] at hlay; exact Option.some.inj hlay
    subst e2
    have e3 : col = col' := by rw [hcol] at hcol2; exact Option.some.inj hcol2
    subst e3
    obtain ⟨hcr', -, -⟩ := packB_shape hcr
    obtain ⟨hcg', -, -⟩ := packB_shape hcg
    obtain ⟨hcb', -, -⟩ := packB_shape hcb
    subst hcr' hcg' hcb'
    have er : pyInt (col.r * 255) = ⌊col.r * 255⌋ := by
      unfold pyInt
      exact if_pos (mul_nonneg hr (by norm_num))
    have eg : pyInt (col.g * 255) = ⌊col.g * 255⌋ := by
      unfold pyInt
      exact if_pos (mul_nonneg hg (by norm_num))
    have eb : pyInt (col.b * 255) = ⌊col.b * 255⌋ := by
      unfold pyInt
      exact if_pos (mul_nonneg hb (by norm_num))
    rw [er, eg, eb] at h
    cases dt with
    | false =>
      simp only [Bool.false_eq_true, if_false, Option.pure_def, Option.some.injEq] at h
      subst h
      refine ⟨?_, ?_, ?_, ?_⟩ <;> rfl
    | true =>
      simp only [if_true] at h
      cases uvs with
      | none =>
        simp only [Option.pure_def, Option.some.injEq] at h
        subst h
        refine ⟨?_, ?_, ?_, ?_⟩ <;> rfl
      | some us =>
        simp only [Option.bind_eq_bind', Option.bind_eq_some, Option.pure_def,
          Option.some.injEq] at h
        obtain ⟨uv, huv, h⟩ := h
        subst h
        refine ⟨?_, ?_, ?_, ?_⟩ <;> rfl
  · exact absurd h (by simp)

/-- Witness for C6 at corner 0 of `triMesh`'s triangle (pure red). -/
theorem c6_color_bytes_witness :
    ((encodeCorner false triMesh none triPoly 0).get (by with_unfolding_all decide)).get? 6
      = some (.u8 (⌊(1 : ℚ) * 255⌋).toNat) ∧
    ((encodeCorner false triMesh none triPoly 0).get (by with_unfolding_all decide)).get? 7
      = some (.u8 (⌊(0 : ℚ) * 255⌋).toNat) ∧
    ((encodeCorner false triMesh none triPoly 0).get (by with_unfolding_all decide)).get? 8
      = some (.u8 (⌊(0 : ℚ) * 255⌋).toNat) ∧
    ((encodeCorner false triMesh none triPoly 0).get (by with_unfolding_all decide)).get? 9
      = some (.u8 255) :=
  c6_color_bytes false triMesh none triPoly 0 _ 0 triColors ⟨1, 0, 0⟩
    (Option.some_get _).symm rfl rfl rfl (by norm_num) (by norm_num) (by norm_num)

/-- C7: the color written for a corner is looked up in the active color
layer at the corner's mesh-level vertex index (`poly.vertices[i]`), not at
its loop index.  Concretely in `mesh7`, vertex 0 is shared by loop 0 (color
black) and loop 3 (color red): corner 0 of the second triangle (`poly7`) is
loop 3, whose own per-corner color is red (`colors7[3]`, which would encode
to byte 255), yet the bytes written are those of `colors7[0]` — black — so
that corner is written with a color different from its own per-corner
color. -/
theorem c7_color_vertex_indexed :
    mesh7.polygons.get? 1 = some poly7 ∧
    poly7.loop_indices.get? 0 = some 3 ∧
    poly7.vertices.get? 0 = some 0 ∧
    (mesh7.loops.get? 0).map MeshLoop.vertex_index = some 0 ∧
    (mesh7.loops.get? 3).map MeshLoop.vertex_index = some 0 ∧
    mesh7.vertex_colors = some colors7 ∧
    colors7.get? 0 = some ⟨0, 0, 0⟩ ∧
    colors7.get? 3 = some ⟨1, 0, 0⟩ ∧
    (encodeCorner false mesh7 none poly7 0).map
      (fun l => (l.get? 6, l.get? 7, l.get? 8, l.get? 9))
      = some (some (.u8 0), some (.u8 0), some (.u8 0), some (.u8 255)) ∧
    PackItem.u8 0 ≠ .u8 ((pyInt ((1 : ℚ) * 255)).toNat) := by
  with_unfolding_all decide

/-- C8 at its failing input: with the texcoord flag enabled and `mesh8`
lacking a uv layer, the per-mesh loop itself succeeds exactly as the claim
describes — the warning is recorded, three 36-byte records are written, and
the corner's texcoord bytes decode to `(0.0, 0.0)` — but the final
consistency assert of line 116 (`vertex_count * 28 == len(data)`) then
fails, so the export aborts and no output file is produced, contradicting
the claim that the export succeeds. -/
theorem c8_texcoord_warning_then_abort :
    (writeMeshes true initState [mesh8]).map
      (fun st => (st.warnings, byteLen st.data, st.vertex_count))
      = some ([mesh8.name], 108, 3) ∧
    (encodeCorner true mesh8 none ⟨[0, 1, 2], [0, 1, 2]⟩ 0).map
      (fun l => (l.get? 10, l.get? 11)) = some (some (.f32 0), some (.f32 0)) ∧
    exportMeshes true [mesh8] = none := by
  with_unfolding_all decide

end MeshExport
